import Mathlib

/-!
# google-slide-manager — verification of the ordinal-resolution and
# batch-assembly core

Shallow embedding of the Go sources under `src/`. Remote calls
(`Presentations.Get`, `Presentations.BatchUpdate`, Drive calls) are pure
inputs/outputs here: a fetched snapshot is a `Presentation` value, a
submission is the list of request values the code built, and a remote
result is an `Except` parameter. Go's `time.Now().UnixNano()` is an
explicit `Nat` argument (the clock reading). A Go runtime panic (negative
slice index) is a distinguished outcome constructor, not an error return.
-/

namespace GSM

/-! ## Data model

Transcribed from the `google.golang.org/api/slides/v1` fields the code
reads: `TextRun.Content`, `Shape.Text.TextElements`,
`PageElement.{ObjectId,Shape}`, `Page.PageElements`,
`Slide.{ObjectId,PageElements,SlideProperties.NotesPage}` (the
`SlideProperties` wrapper is collapsed: the code always dereferences it),
`Presentation.Slides`. `Option` stands for a nil-able Go pointer. -/

/-- A `TextElement`: `textRun` is `TextRun.Content` when `TextRun != nil`. -/
structure TextElement where
  textRun : Option String
  deriving Repr, DecidableEq, Inhabited

/-- A `Shape`: `text` is `Shape.Text.TextElements` when `Text != nil`. -/
structure ShapeData where
  text : Option (List TextElement)
  deriving Repr, DecidableEq, Inhabited

/-- A `PageElement` with its server identifier and optional shape. -/
structure PageElement where
  objectId : String
  shape : Option ShapeData
  deriving Repr, DecidableEq, Inhabited

/-- A `Page` (used for notes pages): its ordered page elements. -/
structure Page where
  pageElements : List PageElement
  deriving Repr, DecidableEq, Inhabited

/-- A `Slide`: identifier, page elements, optional notes page. -/
structure Slide where
  objectId : String
  pageElements : List PageElement
  notesPage : Option Page
  deriving Repr, DecidableEq, Inhabited

/-- A fetched `Presentation` snapshot: its ordered slides. -/
structure Presentation where
  slides : List Slide
  deriving Repr, DecidableEq, Inhabited

/-! ## Identifier generator

`internal/slide`, `internal/table`, `internal/shape` each contain the
identical function

```
func generateObjectID(prefix string) string {
    return fmt.Sprintf("%s_%d", prefix, time.Now().UnixNano())
}
```

The clock reading is made an explicit argument; `%d` on the (non-negative)
`int64` nanosecond count is decimal rendering, i.e. `Nat.repr`. -/

/-- `generateObjectID` from `shape.go:24-26` (same in `slide.go`,
`table.go`): category tag, underscore, decimal `UnixNano` reading. -/
def generateObjectID (tag : String) (unixNano : Nat) : String :=
  tag ++ "_" ++ Nat.repr unixNano

/-! ## Slide ordinal resolution

Shared pattern of `slide.Duplicate/Move/Remove` (`slide.go`),
`table.Create` (`table.go`), `shape.Add` (`shape.go:29-39`),
`notes.Get/Add` (`notes.go`):

```
if slideIndex >= len(presentation.Slides) {
    return fmt.Errorf("slide index out of range")
}
slideID := presentation.Slides[slideIndex].ObjectId
```

The guard catches only the upper bound. A negative `slideIndex` passes it
and the slice access `presentation.Slides[slideIndex]` panics at runtime;
the `panicked` constructor is that outcome. -/

/-- Outcome of resolving a slide ordinal against a snapshot. -/
inductive SlideResolution where
  | resolved (slideId : String)
  | outOfRangeError
  | panicked
  deriving Repr, DecidableEq

/-- The slide-resolution prefix shared by Duplicate, Remove, Move, table
Create, shape Add and notes Get/Add (see module comment above). -/
def resolveSlide (slides : List Slide) (slideIndex : Int) : SlideResolution :=
  if (slides.length : Int) ≤ slideIndex then .outOfRangeError
  else if slideIndex < 0 then .panicked
  else .resolved ((slides.getD slideIndex.toNat ⟨"", [], none⟩).objectId)

/-! ## Reorder (`slide.go`, `Service.Reorder`)

```
var indices []int
for _, s := range strings.Split(indicesStr, ",") {
    idx, err := strconv.Atoi(strings.TrimSpace(s))
    if err != nil { return fmt.Errorf("invalid index: %s", s) }
    indices = append(indices, idx)
}
presentation, err := ...Get...
var requests []*slides.Request
for newPosition, oldIndex := range indices {
    if oldIndex >= len(presentation.Slides) { return ...out of range... }
    slideID := presentation.Slides[oldIndex].ObjectId
    requests = append(requests, ...UpdateSlidesPosition{[slideID], int64(newPosition)}...)
}
...BatchUpdate(presentationID, ...Requests: requests...)
```

All tokens are parsed before the snapshot is consulted; the requests are
submitted as one batch only after the whole loop succeeds. `int64`
overflow in `Atoi` is not modelled (indices are compared against slide
counts, far below overflow). -/

/-- Go's `unicode.IsSpace` restricted to the ASCII whitespace the claims
exercise (space, tab, newline, carriage return, vertical tab, form feed). -/
def isSpaceChar (c : Char) : Bool :=
  c = ' ' || c = '\t' || c = '\n' || c = '\r' || c = '\x0b' || c = '\x0c'

/-- `strings.TrimSpace`: drop leading and trailing whitespace. -/
def trimSpace (s : String) : String :=
  String.mk (((s.toList.dropWhile isSpaceChar).reverse.dropWhile isSpaceChar).reverse)

/-- The splitting loop of `strings.Split(s, ",")`. -/
def splitCommaAux : List Char → List Char → List String
  | [], cur => [String.mk cur.reverse]
  | c :: rest, cur =>
    if c = ',' then String.mk cur.reverse :: splitCommaAux rest []
    else splitCommaAux rest (c :: cur)

/-- `strings.Split(s, ",")`: the comma-separated pieces of `s`. -/
def splitComma (s : String) : List String :=
  splitCommaAux s.toList []

/-- Decimal digit value of a character, `none` for a non-digit. -/
def digitVal? (c : Char) : Option Nat :=
  if '0' ≤ c ∧ c ≤ '9' then some (c.toNat - 48) else none

/-- Value of a non-empty all-digit character list, `none` otherwise. -/
def parseDigits (cs : List Char) : Option Nat :=
  match cs with
  | [] => none
  | _ => cs.foldl (fun acc c => acc.bind fun a => (digitVal? c).map fun d => 10 * a + d)
      (some 0)

/-- `strconv.Atoi`: optional sign, then a non-empty digit run. -/
def atoi (s : String) : Option Int :=
  match s.toList with
  | '-' :: rest => (parseDigits rest).map fun n => -(n : Int)
  | '+' :: rest => (parseDigits rest).map fun n => (n : Int)
  | cs => (parseDigits cs).map fun n => (n : Int)

/-- The parse loop of `Reorder`: each comma-token is trimmed and parsed;
the first failing token (untrimmed, as in the Go error) is reported. -/
def parseReorderIndices : List String → Except String (List Int)
  | [] => .ok []
  | tok :: rest =>
    match atoi (trimSpace tok) with
    | none => .error tok
    | some idx =>
      match parseReorderIndices rest with
      | .error t => .error t
      | .ok idxs => .ok (idx :: idxs)

/-- Outcome of `Reorder`: the submitted batch of
`(InsertionIndex, SlideObjectId)` reposition requests, or the failure. -/
inductive ReorderOutcome where
  | submitted (requests : List (Nat × String))
  | malformedInput (token : String)
  | outOfRangeError (badIndex : Int)
  | panicked
  deriving Repr, DecidableEq

/-- The request-building loop of `Reorder`: `newPosition` is the running
loop counter; a listed index `≥ len(slides)` stops with the out-of-range
error, a negative one reaches the slice access and panics. -/
def buildReorderRequests (slides : List Slide) (newPosition : Nat) :
    List Int → ReorderOutcome
  | [] => .submitted []
  | oldIndex :: rest =>
    if (slides.length : Int) ≤ oldIndex then .outOfRangeError oldIndex
    else if oldIndex < 0 then .panicked
    else
      match buildReorderRequests slides (newPosition + 1) rest with
      | .submitted reqs =>
        .submitted ((newPosition, (slides.getD oldIndex.toNat ⟨"", [], none⟩).objectId) :: reqs)
      | other => other

/-- `Service.Reorder` (`slide.go:1205-1245` of the concatenated source):
parse all tokens, then resolve each against the one fetched snapshot,
then submit the whole batch. -/
def reorder (slides : List Slide) (indicesStr : String) : ReorderOutcome :=
  match parseReorderIndices (splitComma indicesStr) with
  | .error tok => .malformedInput tok
  | .ok indices => buildReorderRequests slides 0 indices

/-! ## Cell styling (`table.go`, `parseColor` and `Service.StyleCell`)

```
func parseColor(hexColor string) *slides.OpaqueColor {
    hexColor = strings.TrimPrefix(hexColor, "#")
    if len(hexColor) != 6 { return nil }
    var r, g, b int
    fmt.Sscanf(hexColor, "%02x%02x%02x", &r, &g, &b)
    return &slides.OpaqueColor{RgbColor: &slides.RgbColor{
        Red: float64(r)/255.0, Green: float64(g)/255.0, Blue: float64(b)/255.0}}
}
```

`Sscanf`'s error is discarded: each `%02x` greedily reads up to two hex
digits; scanning stops at the first failure and the remaining variables
keep their zero values. `RgbColor` here keeps the integer numerators
`r, g, b ∈ [0,255]`; the source divides each by `255.0` for the wire
format, a representation detail with no bearing on the claims.

`StyleCell` builds its single `UpdateTableCellProperties` request
unconditionally — `parseColor`'s `nil` result is never checked — and the
only failure path in the source is the remote `BatchUpdate` error, here
the `remote` parameter. -/

/-- The color numerators parsed out of a six-character hex string. -/
structure RgbColor where
  red : Nat
  green : Nat
  blue : Nat
  deriving Repr, DecidableEq

/-- `strings.TrimPrefix(s, "#")`: drop a leading hash if present. -/
def trimHash (s : String) : String :=
  match s.toList with
  | '#' :: rest => String.mk rest
  | _ => s

/-- Hexadecimal digit value of a character, `none` for a non-hex-digit. -/
def hexDigitVal? (c : Char) : Option Nat :=
  if '0' ≤ c ∧ c ≤ '9' then some (c.toNat - 48)
  else if 'a' ≤ c ∧ c ≤ 'f' then some (c.toNat - 87)
  else if 'A' ≤ c ∧ c ≤ 'F' then some (c.toNat - 55)
  else none

/-- One `%02x` operand: up to two hex digits, at least one; returns the
value and the unread remainder. -/
def scanHexWidth2 : List Char → Option (Nat × List Char)
  | [] => none
  | c :: rest =>
    match hexDigitVal? c with
    | none => none
    | some d1 =>
      match rest with
      | c2 :: rest2 =>
        match hexDigitVal? c2 with
        | some d2 => some (16 * d1 + d2, rest2)
        | none => some (d1, rest)
      | [] => some (d1, [])

/-- `fmt.Sscanf(s, "%02x%02x%02x", &r, &g, &b)` with the error ignored:
variables after the first failing operand keep their zero values. -/
def sscanfHex3 (cs : List Char) : Nat × Nat × Nat :=
  match scanHexWidth2 cs with
  | none => (0, 0, 0)
  | some (r, cs1) =>
    match scanHexWidth2 cs1 with
    | none => (r, 0, 0)
    | some (g, cs2) =>
      match scanHexWidth2 cs2 with
      | none => (r, g, 0)
      | some (b, _) => (r, g, b)

/-- `parseColor` (`table.go:928-945` of the concatenated source). -/
def parseColor (hexColor : String) : Option RgbColor :=
  let h := trimHash hexColor
  if h.length ≠ 6 then none
  else
    match sscanfHex3 h.toList with
    | (r, g, b) => some ⟨r, g, b⟩

/-- The one cell-styling request `StyleCell` builds: target table, cell
location, and the (possibly absent) background color. -/
structure CellStyleRequest where
  objectId : String
  rowIndex : Int
  columnIndex : Int
  bgColor : Option RgbColor
  deriving Repr, DecidableEq

/-- `Service.StyleCell` (`table.go:948-982`): the submitted request list
(first component) and the returned result (second). There is no local
validation branch; only the remote `BatchUpdate` outcome can fail. -/
def styleCell (tableID : String) (row col : Int) (bgColor : String)
    (remote : Except String Unit) : List CellStyleRequest × Except String Unit :=
  ([⟨tableID, row, col, parseColor bgColor⟩],
    match remote with
    | .error e => .error ("error styling cell: " ++ e)
    | .ok _ => .ok ())

/-! ## Text tree walker (`text` package in `shape.go`, and `notes.go`)

The nested read loops shared by `text.ExtractAll`, `text.Search`,
`notes.Get` and `notes.ExtractAll`:

```
for _, element := range ... {
    if element.Shape != nil && element.Shape.Text != nil {
        for _, textElement := range element.Shape.Text.TextElements {
            if textElement.TextRun != nil { ...WriteString(textElement.TextRun.Content) }
        }
        // text.ExtractAll additionally writes "\n" here
    }
}
```
-/

/-- Concatenation of the `TextRun` contents of a text-element list
(the innermost loop). -/
def textElementsText : List TextElement → String
  | [] => ""
  | te :: rest =>
    (match te.textRun with
     | some content => content
     | none => "") ++ textElementsText rest

/-- The element loop as in `notes.Get` / `notes.ExtractAll`: runs of
text-bearing elements concatenated, nothing between elements. -/
def pageText : List PageElement → String
  | [] => ""
  | el :: rest =>
    (match el.shape with
     | some sh =>
       match sh.text with
       | some tes => textElementsText tes
       | none => ""
     | none => "") ++ pageText rest

/-- The element loop as in `text.ExtractAll`: each text-bearing element's
flattened runs followed by one newline. -/
def slideElementsText : List PageElement → String
  | [] => ""
  | el :: rest =>
    (match el.shape with
     | some sh =>
       match sh.text with
       | some tes => textElementsText tes ++ "\n"
       | none => ""
     | none => "") ++ slideElementsText rest

/-- The slide loop of `text.ExtractAll`: after every slide — including
the last — the fixed delimiter is appended. -/
def extractAllTextLoop : List Slide → String
  | [] => ""
  | sl :: rest => slideElementsText sl.pageElements ++ "\n---\n\n" ++ extractAllTextLoop rest

/-- `text.Service.ExtractAll` (`shape.go:105-128` of the concatenated
source), minus the remote fetch. -/
def extractAllText (p : Presentation) : String :=
  extractAllTextLoop p.slides

/-- One entry of `text.Search`'s result list. -/
structure SearchResult where
  slideIndex : Nat
  objectId : String
  text : String
  deriving Repr, DecidableEq

/-- `strings.ToLower` (the ASCII lowering the claims exercise). -/
def toLowerStr (s : String) : String :=
  String.mk (s.toList.map Char.toLower)

/-- `hay` starts with `needle`. -/
def beginsWith : List Char → List Char → Bool
  | _, [] => true
  | [], _ :: _ => false
  | c :: cs, d :: ds => c == d && beginsWith cs ds

/-- `needle` occurs contiguously inside `hay` (Go `strings.Contains`). -/
def containsSeq : List Char → List Char → Bool
  | [], needle => needle.isEmpty
  | c :: cs, needle => beginsWith (c :: cs) needle || containsSeq cs needle

/-- `strings.Contains` on strings. -/
def strContains (s sub : String) : Bool :=
  containsSeq s.toList sub.toList

/-- The per-element inner loops of `text.Search`: one result per text run
whose lower-cased content contains the lower-cased query, carrying the
enclosing element's identifier and the full run content. -/
def elementSearchResults (slideIdx : Nat) (query : String) (el : PageElement) :
    List SearchResult :=
  match el.shape with
  | none => []
  | some sh =>
    match sh.text with
    | none => []
    | some tes =>
      tes.filterMap fun te =>
        match te.textRun with
        | none => none
        | some content =>
          if strContains (toLowerStr content) (toLowerStr query) then
            some ⟨slideIdx, el.objectId, content⟩
          else none

/-- The slide loop of `text.Search`, with its running slide index. -/
def searchLoop (query : String) : Nat → List Slide → List SearchResult
  | _, [] => []
  | idx, sl :: rest =>
    (sl.pageElements.flatMap (elementSearchResults idx query)) ++
      searchLoop query (idx + 1) rest

/-- `text.Service.Search` (`shape.go:156-183` of the concatenated
source), minus the remote fetch. -/
def searchText (p : Presentation) (query : String) : List SearchResult :=
  searchLoop query 0 p.slides

/-! ## Notes (`notes.go`, i.e. `src/unnamed/part_003`) -/

/-- Outcome of `notes.Service.Add`: the `InsertText` request targeting the
notes shape, or the failure (`panicked` = the negative-index slice access,
as in `resolveSlide`). -/
inductive AddNotesOutcome where
  | submitted (notesShapeId : String) (text : String)
  | outOfRangeError
  | panicked
  | notesUnavailable
  | notesShapeNotFound
  deriving Repr, DecidableEq

/-- `notes.Service.Add` (`part_003:56-104`): resolve the slide, require a
notes page with at least one element, take the `ObjectId` of the first
element whose `Shape` is non-nil (`notesShapeID` stays `""` when there is
none), and submit one `InsertText` request against it. -/
def addNotes (p : Presentation) (slideIndex : Int) (notesContent : String) :
    AddNotesOutcome :=
  if (p.slides.length : Int) ≤ slideIndex then .outOfRangeError
  else if slideIndex < 0 then .panicked
  else
    let sl := p.slides.getD slideIndex.toNat ⟨"", [], none⟩
    match sl.notesPage with
    | none => .notesUnavailable
    | some pg =>
      if pg.pageElements.length = 0 then .notesUnavailable
      else
        let notesShapeID :=
          match pg.pageElements.find? (fun e => e.shape.isSome) with
          | some e => e.objectId
          | none => ""
        if notesShapeID = "" then .notesShapeNotFound
        else .submitted notesShapeID notesContent

/-- Modelled from the spec's words for the C4 comparison (amended form):
`NotesUnavailable` without a notes page or without elements; otherwise the
first element carrying a shape is targeted (regardless of any text body),
`NotesShapeNotFound` when no element carries a shape or the found
element's identifier is empty. -/
def addNotesSlideSpec (sl : Slide) (notesContent : String) : AddNotesOutcome :=
  match sl.notesPage with
  | none => .notesUnavailable
  | some pg =>
    if pg.pageElements.isEmpty then .notesUnavailable
    else
      match pg.pageElements.find? (fun e => e.shape.isSome) with
      | none => .notesShapeNotFound
      | some e =>
        if e.objectId = "" then .notesShapeNotFound
        else .submitted e.objectId notesContent

/-- The slide loop of `notes.ExtractAll` (`part_003:107-138`), with its
running index: slides without a notes page are skipped, a slide whose
concatenated notes text is empty is skipped, otherwise the synthetic key
`slide_<idx>` maps to the trimmed text. The Go map is modelled as the
inserted key/value pairs in loop order (all keys are distinct). -/
def extractAllNotesLoop : Nat → List Slide → List (String × String)
  | _, [] => []
  | idx, sl :: rest =>
    match sl.notesPage with
    | none => extractAllNotesLoop (idx + 1) rest
    | some pg =>
      if (pageText pg.pageElements).length > 0 then
        ("slide_" ++ Nat.repr idx, trimSpace (pageText pg.pageElements)) ::
          extractAllNotesLoop (idx + 1) rest
      else extractAllNotesLoop (idx + 1) rest

/-- `notes.Service.ExtractAll`, minus the remote fetch. -/
def extractAllNotes (p : Presentation) : List (String × String) :=
  extractAllNotesLoop 0 p.slides

/-! ## Remote calls, style no-ops, presentation Create -/

/-- The remote calls the `style` and `presentation` services can issue. -/
inductive RemoteCall where
  | presentationsCreate (title : String)
  | driveFilesUpdateAddParents (fileID : String) (folderID : String)
  | presentationsGet (presentationID : String)
  | batchUpdate (presentationID : String) (requestCount : Nat)
  deriving Repr, DecidableEq

/-- `style.Service.CopyTextStyle` (`style.go:23-27`): the body is
`return nil` — no remote call, unconditional success. -/
def copyTextStyle (presentationID sourceObjectID targetObjectID : String) :
    List RemoteCall × Except String Unit :=
  ([], .ok ())

/-- `style.Service.CopyTheme` (`style.go:29-33`): `return nil`. -/
def copyTheme (sourcePresentationID targetPresentationID : String) :
    List RemoteCall × Except String Unit :=
  ([], .ok ())

/-- `style.Service.TranslateSlides` (`style.go:35-39`): `return nil`. -/
def translateSlides (presentationID targetLanguage : String) :
    List RemoteCall × Except String Unit :=
  ([], .ok ())

/-- `presentation.Service.Create` (`presentation.go:26-45`): create the
presentation; on success, when a folder is given, move it there with a
separate Drive call. `createResult`/`moveResult` are the remote outcomes;
the first component lists the calls actually issued, in order. A failing
move leaves the created presentation in place — there is no delete call. -/
def createPresentation (title folderID : String)
    (createResult : Except String String) (moveResult : Except String Unit) :
    List RemoteCall × Except String String :=
  match createResult with
  | .error e => ([.presentationsCreate title], .error ("error creating presentation: " ++ e))
  | .ok presentationId =>
    if folderID = "" then ([.presentationsCreate title], .ok presentationId)
    else
      match moveResult with
      | .error e =>
        ([.presentationsCreate title, .driveFilesUpdateAddParents presentationId folderID],
          .error ("error moving to folder: " ++ e))
      | .ok _ =>
        ([.presentationsCreate title, .driveFilesUpdateAddParents presentationId folderID],
          .ok presentationId)

/-! ## Specification-side helpers (used only in theorem statements) -/

/-- Decimal value of a digit-character list (most significant first);
used to read the rendering of `generateObjectID`'s timestamp back. -/
def digitsVal (ds : List Char) : Nat :=
  ds.foldl (fun a c => 10 * a + (c.toNat - 48)) 0

/-- Plain concatenation of a string list, for stating the text-walker
characterizations. -/
def joinAll : List String → String
  | [] => ""
  | s :: rest => s ++ joinAll rest

end GSM

namespace GSM

/-! ## Decimal rendering: `Nat.repr` is injective

`generateObjectID` renders the clock reading with `%d`, i.e. `Nat.repr`.
The claims about identifier collisions reduce to: equal renderings force
equal readings. -/

/-- A digit character's value undoes `Nat.digitChar` below ten. -/
theorem digitChar_toNat_sub : ∀ m : Nat, m < 10 → (Nat.digitChar m).toNat - 48 = m := by
  decide

/-- `digitsVal` of a snoc: shift and add the last digit. -/
theorem digitsVal_snoc (ds : List Char) (c : Char) :
    digitsVal (ds ++ [c]) = 10 * digitsVal ds + (c.toNat - 48) := by
  unfold digitsVal
  rw [List.foldl_append]
  rfl

/-- Given fuel above `n`, the characters `Nat.toDigitsCore 10` places in
front of the accumulator have decimal value `n`. -/
theorem toDigitsCore_val :
    ∀ (f n : Nat) (acc : List Char), n < f →
      ∃ out : List Char,
        Nat.toDigitsCore 10 f n acc = out ++ acc ∧ digitsVal out = n := by
  intro f
  induction f with
  | zero => omega
  | succ f ih =>
    intro n acc hn
    by_cases hq : n / 10 = 0
    · refine ⟨[Nat.digitChar (n % 10)], by simp [Nat.toDigitsCore, hq], ?_⟩
      have hsub := digitChar_toNat_sub (n % 10) (by omega)
      simp only [digitsVal, List.foldl_cons, List.foldl_nil, hsub]
      omega
    · obtain ⟨out, hout, hval⟩ := ih (n / 10) (Nat.digitChar (n % 10) :: acc) (by omega)
      refine ⟨out ++ [Nat.digitChar (n % 10)], ?_, ?_⟩
      · rw [List.append_assoc, List.singleton_append, ← hout]
        simp [Nat.toDigitsCore, hq]
      · rw [digitsVal_snoc, hval, digitChar_toNat_sub (n % 10) (by omega)]
        omega

/-- The decimal rendering of a natural number determines it. -/
theorem natRepr_inj {a b : Nat} (h : Nat.repr a = Nat.repr b) : a = b := by
  obtain ⟨outA, ha, hva⟩ := toDigitsCore_val (a + 1) a [] (Nat.lt_succ_self a)
  obtain ⟨outB, hb, hvb⟩ := toDigitsCore_val (b + 1) b [] (Nat.lt_succ_self b)
  unfold Nat.repr Nat.toDigits at h
  rw [ha, hb, List.append_nil, List.append_nil] at h
  have hsame : outA = outB := by
    have := congrArg String.data h
    simpa [List.asString] using this
  rw [← hva, ← hvb, hsame]

/-! ## List access helpers -/

/-- `getD` at the length of the left part of an append picks the middle
element. -/
theorem getD_append_len {α : Type} (pre : List α) (x : α) (post : List α) (d : α) :
    (pre ++ x :: post).getD pre.length d = x := by
  induction pre with
  | nil => rfl
  | cons a pre ih => simpa using ih

/-- `getD` at an in-bounds position is `get`. -/
theorem getD_eq_get {α : Type} (l : List α) (d : α) (i : Fin l.length) :
    l.getD i d = l.get i := by
  induction l with
  | nil => exact absurd i.isLt (by simp)
  | cons a t ih =>
    rcases i with ⟨j, hj⟩
    cases j with
    | zero => rfl
    | succ j => simpa using ih ⟨j, by simpa using hj⟩

/-! ## Claim theorems -/

/-- C1: slide resolution — shared by Duplicate, Remove, Move, table
Create, shape Add and notes Get/Add — returns the identifier of the slide
at position `index` when `0 ≤ index < N`, and fails with the out-of-range
error when `index ≥ N`; but for `index < 0` the guard does not fire and
the slice access panics instead of returning the OutOfRange error the
claim requires (no wraparound either way). -/
theorem resolveSlide_bounds :
    (∀ (pre : List Slide) (sl : Slide) (post : List Slide),
      resolveSlide (pre ++ sl :: post) pre.length = .resolved sl.objectId) ∧
    (∀ (slides : List Slide) (k : Nat),
      resolveSlide slides ((slides.length : Int) + k) = .outOfRangeError) ∧
    (∀ (slides : List Slide) (k : Nat),
      resolveSlide slides (-((k : Int) + 1)) = .panicked) ∧
    resolveSlide [⟨"s0", [], none⟩] (-1) = .panicked := by
  refine ⟨?_, ?_, ?_, by decide⟩
  · intro pre sl post
    have hlen : ¬(((pre ++ sl :: post).length : Int) ≤ (pre.length : Int)) := by
      simp only [List.length_append, List.length_cons]
      push_cast
      omega
    have hneg : ¬((pre.length : Int) < 0) := by omega
    unfold resolveSlide
    rw [if_neg hlen, if_neg hneg, Int.toNat_natCast, getD_append_len]
  · intro slides k
    have h : ((slides.length : Int)) ≤ (slides.length : Int) + k := by omega
    unfold resolveSlide
    rw [if_pos h]
  · intro slides k
    have h1 : ¬((slides.length : Int) ≤ -((k : Int) + 1)) := by omega
    have h2 : -((k : Int) + 1) < 0 := by omega
    unfold resolveSlide
    rw [if_neg h1, if_pos h2]

/-- C2 counterexample: two `generateObjectID` calls whose `UnixNano`
readings fall in the same clock tick return equal identifiers — the
identifier is the bare `tag_timestamp` with no sequence counter. -/
theorem generateObjectID_same_tick_collision :
    generateObjectID "shape" 1699999999 = generateObjectID "shape" 1699999999 ∧
    generateObjectID "shape" 1699999999 = "shape_1699999999" :=
  ⟨rfl, by decide⟩

/-- C2 (amended): `generateObjectID` is timestamp-only; calls whose clock
readings differ return distinct identifiers, and same-tick calls collide
(there is no per-process sequence counter tie-breaker). -/
theorem generateObjectID_distinct_ticks :
    ∀ (tag : String) (t k : Nat),
      generateObjectID tag t ≠ generateObjectID tag (t + k + 1) := by
  intro tag t k h
  unfold generateObjectID at h
  have hdata := congrArg String.data h
  simp only [String.data_append] at hdata
  have h2 := List.append_cancel_left hdata
  have h4 : Nat.repr t = Nat.repr (t + k + 1) := String.ext h2
  have := natRepr_inj h4
  omega

/-! The `Reorder` characterization: in-bounds ordinals are encoded as
`Fin`-valued lists, so the statement carries no side hypotheses. -/

/-- When every listed ordinal is in bounds, the request loop emits one
reposition pair per listed slide, the new position counting up from the
loop counter and the identifier looked up in the original snapshot. -/
theorem buildReorderRequests_in_bounds (slides : List Slide) :
    ∀ (idxs : List (Fin slides.length)) (k : Nat),
      buildReorderRequests slides k (idxs.map fun i => (i.val : Int)) =
        .submitted ((idxs.map fun i => (slides.get i).objectId).enumFrom k) := by
  intro idxs
  induction idxs with
  | nil => intro k; rfl
  | cons i rest ih =>
    intro k
    have h1 : ¬((slides.length : Int) ≤ (i.val : Int)) := by
      have := i.isLt
      omega
    have h2 : ¬((i.val : Int) < 0) := by omega
    rw [List.map_cons]
    unfold buildReorderRequests
    rw [if_neg h1, if_neg h2, ih (k + 1)]
    show ReorderOutcome.submitted ((k, (slides.getD ((i.val : Int)).toNat
      ⟨"", [], none⟩).objectId) :: _) = _
    rw [Int.toNat_natCast, getD_eq_get]
    rfl

/-- C3: `Reorder` parses every comma token (first unparsable token is the
malformed-input failure), resolves listed ordinals against the original
snapshot and emits one reposition pair per listed slide with the new
position equal to the position in the list, as one batch; an index `≥ N`
is the out-of-range failure — but a negative listed index slips past the
guard and panics at the slice access instead of failing with OutOfRange. -/
theorem reorder_eval :
    (∀ (slides : List Slide) (idxs : List (Fin slides.length)),
      buildReorderRequests slides 0 (idxs.map fun i => (i.val : Int)) =
        .submitted ((idxs.map fun i => (slides.get i).objectId).enum)) ∧
    reorder [⟨"s0", [], none⟩, ⟨"s1", [], none⟩, ⟨"s2", [], none⟩, ⟨"s3", [], none⟩]
        "2,0,1" = .submitted [(0, "s2"), (1, "s0"), (2, "s1")] ∧
    reorder [⟨"s0", [], none⟩, ⟨"s1", [], none⟩] "0,x" = .malformedInput "x" ∧
    reorder [⟨"s0", [], none⟩, ⟨"s1", [], none⟩] "5,0" = .outOfRangeError 5 ∧
    reorder [⟨"s0", [], none⟩, ⟨"s1", [], none⟩] "0,-1" = .panicked := by
  refine ⟨?_, by decide, by decide, by decide, by decide⟩
  intro slides idxs
  exact buildReorderRequests_in_bounds slides idxs 0

/-- C4 counterexample: on a notes page whose first shape-bearing element
`"a"` has no text body (while `"b"` does), `Add` targets `"a"` — it does
not look for a text body, so the claim's "first element that carries a
text body" and its `NotesShapeNotFound` condition are both wrong. -/
theorem addNotes_ignores_text_body :
    addNotes
        ⟨[⟨"s0", [],
          some ⟨[⟨"a", some ⟨none⟩⟩, ⟨"b", some ⟨some [⟨some "x"⟩]⟩⟩]⟩⟩]⟩
        0 "note" = .submitted "a" "note" ∧
    (some (⟨none⟩ : ShapeData)).bind ShapeData.text = none := by
  exact ⟨by decide, rfl⟩

/-- C4 (amended): `notes.Add` on an in-range slide fails with
`NotesUnavailable` when the slide has no notes page or the notes page has
no elements; otherwise it targets the first element that carries a shape
— regardless of whether that shape has a text body — and fails with
`NotesShapeNotFound` only when no element carries a shape (or the first
shape-bearing element's identifier is the empty string). -/
theorem addNotes_first_shape_target :
    ∀ (pre : List Slide) (sl : Slide) (post : List Slide) (content : String),
      addNotes ⟨pre ++ sl :: post⟩ (pre.length : Int) content =
        addNotesSlideSpec sl content := by
  intro pre sl post content
  have hlen : ¬(((pre ++ sl :: post).length : Int) ≤ (pre.length : Int)) := by
    simp only [List.length_append, List.length_cons]
    push_cast
    omega
  have hneg : ¬((pre.length : Int) < 0) := by omega
  unfold addNotes addNotesSlideSpec
  rw [if_neg hlen, if_neg hneg, Int.toNat_natCast, getD_append_len]
  dsimp only
  cases hnp : sl.notesPage with
  | none => rfl
  | some pg =>
    dsimp only
    cases hel : pg.pageElements with
    | nil => rfl
    | cons e rest =>
      cases hf : List.find? (fun x => x.shape.isSome) (e :: rest) with
      | none => rfl
      | some e2 => rfl

/-- C5 counterexample: styling a cell with the invalid color string
`"red"` does not fail with a local MalformedInput error — the batch is
submitted anyway, carrying no color at all. -/
theorem styleCell_invalid_color_submitted :
    styleCell "t1" 2 3 "red" (.ok ()) = ([⟨"t1", 2, 3, none⟩], .ok ()) := rfl

/-- C5 (amended): `StyleCell` performs no local color validation: the one
request is always built and submitted with whatever `parseColor`
produced — `none` for a string that is not six characters after an
optional `#` (a missing color), and a partially-zeroed (defaulted, e.g.
black) color for a six-character string with non-hex digits — and with a
successful remote call the operation reports success. -/
theorem styleCell_no_local_validation :
    (∀ (tableID : String) (row col : Int) (bgColor : String)
        (remote : Except String Unit),
      (styleCell tableID row col bgColor remote).1 =
        [⟨tableID, row, col, parseColor bgColor⟩]) ∧
    (∀ (tableID : String) (row col : Int) (bgColor : String),
      (styleCell tableID row col bgColor (.ok ())).2 = .ok ()) ∧
    parseColor "red" = none ∧
    parseColor "#ZZZZZZ" = some ⟨0, 0, 0⟩ := by
  refine ⟨fun _ _ _ _ _ => rfl, fun _ _ _ _ => rfl, by decide, by decide⟩

/-! The text-walker characterizations behind C6, C7 and C8. -/

/-- Flattening a text-element list is the ordered concatenation of its
runs' contents. -/
theorem textElementsText_join :
    ∀ tes : List TextElement,
      textElementsText tes = joinAll (tes.map fun te => te.textRun.getD "") := by
  intro tes
  induction tes with
  | nil => rfl
  | cons te rest ih =>
    cases h : te.textRun <;> simp [textElementsText, joinAll, h, ih]

/-- The `ExtractAll` slide loop is the concatenation of one delimited
block per slide. -/
theorem extractAllTextLoop_join :
    ∀ slides : List Slide,
      extractAllTextLoop slides =
        joinAll (slides.map fun sl => slideElementsText sl.pageElements ++ "\n---\n\n") := by
  intro slides
  induction slides with
  | nil => rfl
  | cons sl rest ih => simp [extractAllTextLoop, joinAll, ih, String.append_assoc]

/-- C6: full-text extraction walks slides in snapshot order, flattens each
text-bearing element's runs in order, and appends the fixed delimiter
after every slide including the last; the spec's two-slide example
produces exactly the two delimited blocks. -/
theorem extractAllText_delimiter_spec :
    (∀ p : Presentation,
      extractAllText p =
        joinAll (p.slides.map fun sl => slideElementsText sl.pageElements ++ "\n---\n\n")) ∧
    (∀ tes : List TextElement,
      textElementsText tes = joinAll (tes.map fun te => te.textRun.getD "")) ∧
    extractAllText
        ⟨[⟨"s0", [⟨"e0", some ⟨some [⟨some "Hello"⟩]⟩⟩], none⟩,
          ⟨"s1", [⟨"e1", some ⟨some [⟨some "World"⟩]⟩⟩], none⟩]⟩ =
      "Hello\n\n---\n\n" ++ "World\n\n---\n\n" := by
  refine ⟨fun p => extractAllTextLoop_join p.slides, textElementsText_join, by decide⟩

/-- A string has positive length exactly when it is not the empty
string. -/
theorem length_pos_iff_ne_empty (s : String) : 0 < s.length ↔ s ≠ "" := by
  obtain ⟨data⟩ := s
  cases data with
  | nil => exact ⟨fun h => absurd h (by decide), fun h => absurd rfl h⟩
  | cons c t =>
    refine ⟨fun _ hne => ?_, fun _ => ?_⟩
    · have := congrArg String.data hne
      simp at this
    · show 0 < (c :: t).length
      simp

/-- The notes-extraction loop, started at any index, keeps exactly the
slides with a notes page and non-empty notes text. -/
theorem extractAllNotesLoop_filterMap :
    ∀ (slides : List Slide) (k : Nat),
      extractAllNotesLoop k slides =
        (slides.enumFrom k).filterMap (fun pr =>
          match pr.2.notesPage with
          | none => none
          | some pg =>
            if pageText pg.pageElements = "" then none
            else some ("slide_" ++ Nat.repr pr.1, trimSpace (pageText pg.pageElements))) := by
  intro slides
  induction slides with
  | nil => intro k; rfl
  | cons sl rest ih =>
    intro k
    rw [List.enumFrom, List.filterMap_cons]
    unfold extractAllNotesLoop
    cases hnp : sl.notesPage with
    | none => simpa using ih (k + 1)
    | some pg =>
      by_cases hp : pageText pg.pageElements = ""
      · have hlen : ¬(0 < (pageText pg.pageElements).length) := by
          rw [length_pos_iff_ne_empty]
          simpa using hp
        simp [hp, hlen, ih (k + 1)]
      · have hlen : 0 < (pageText pg.pageElements).length :=
          (length_pos_iff_ne_empty _).mpr hp
        simp [hp, hlen, ih (k + 1)]

/-- C7: notes extraction maps `slide_<index>` to the trimmed concatenated
notes text exactly for slides having a notes page with non-empty notes,
omitting slides without a notes page and slides with empty notes; the
spec's example yields only the trimmed `slide_0` entry. -/
theorem extractAllNotes_mapping_spec :
    (∀ p : Presentation,
      extractAllNotes p =
        p.slides.enum.filterMap (fun pr =>
          match pr.2.notesPage with
          | none => none
          | some pg =>
            if pageText pg.pageElements = "" then none
            else some ("slide_" ++ Nat.repr pr.1, trimSpace (pageText pg.pageElements)))) ∧
    extractAllNotes
        ⟨[⟨"s0", [], some ⟨[⟨"n0", some ⟨some [⟨some "  remember this  "⟩]⟩⟩]⟩⟩,
          ⟨"s1", [], none⟩]⟩ = [("slide_0", "remember this")] := by
  refine ⟨fun p => ?_, by decide⟩
  rw [extractAllNotes, extractAllNotesLoop_filterMap]
  rfl

/-- The search slide loop, started at any index, is one pass over the
enumerated slides. -/
theorem searchLoop_flatMap (query : String) :
    ∀ (slides : List Slide) (k : Nat),
      searchLoop query k slides =
        (slides.enumFrom k).flatMap (fun pr =>
          pr.2.pageElements.flatMap (elementSearchResults pr.1 query)) := by
  intro slides
  induction slides with
  | nil => intro k; rfl
  | cons sl rest ih =>
    intro k
    rw [List.enumFrom, List.flatMap_cons]
    unfold searchLoop
    rw [ih (k + 1)]

/-- C8: search tests the lower-cased query as a substring of each text
run's lower-cased content individually, returning — in document order —
one result per matching run with the slide index, element identifier and
full run content; a query spanning a run boundary matches the flattened
element text but is not found by search. -/
theorem searchText_per_run_spec :
    (∀ (p : Presentation) (query : String),
      searchText p query =
        p.slides.enum.flatMap (fun pr =>
          pr.2.pageElements.flatMap (elementSearchResults pr.1 query))) ∧
    searchText ⟨[⟨"s0", [⟨"e0", some ⟨some [⟨some "World"⟩]⟩⟩], none⟩]⟩ "wor" =
      [⟨0, "e0", "World"⟩] ∧
    searchText ⟨[⟨"s0", [⟨"e0", some ⟨some [⟨some "lo "⟩, ⟨some "wo"⟩]⟩⟩], none⟩]⟩
        "lo wo" = [] ∧
    strContains (toLowerStr (textElementsText [⟨some "lo "⟩, ⟨some "wo"⟩]))
        (toLowerStr "lo wo") = true := by
  refine ⟨fun p query => ?_, by decide, by decide, by decide⟩
  rw [searchText, searchLoop_flatMap]
  rfl

/-- C9: the style/translation operations are unimplemented no-ops — each
returns success while issuing no remote call, so every presentation is
left unchanged. -/
theorem style_operations_noops :
    ∀ (presentationID sourceObjectID targetObjectID srcPres tgtPres
        targetLanguage : String),
      copyTextStyle presentationID sourceObjectID targetObjectID = ([], .ok ()) ∧
      copyTheme srcPres tgtPres = ([], .ok ()) ∧
      translateSlides presentationID targetLanguage = ([], .ok ()) :=
  fun _ _ _ _ _ _ => ⟨rfl, rfl, rfl⟩

/-- C10: with a non-empty folder, `Create` first issues the remote create
and then the move; when the move fails, the result is an error even
though the create call succeeded, and the issued calls contain no
compensating deletion — an error result does not imply that no mutation
occurred. -/
theorem create_move_failure_no_rollback :
    ∀ (title folderID pid e : String), folderID ≠ "" →
      createPresentation title folderID (.ok pid) (.error e) =
        ([.presentationsCreate title, .driveFilesUpdateAddParents pid folderID],
          .error ("error moving to folder: " ++ e)) := by
  intro title folderID pid e h
  unfold createPresentation
  dsimp only
  rw [if_neg h]

/-- C10 witness: the concrete failing-move run. -/
theorem create_move_failure_no_rollback_witness :
    ("folder1" : String) ≠ "" ∧
    createPresentation "T" "folder1" (.ok "p1") (.error "boom") =
      ([.presentationsCreate "T", .driveFilesUpdateAddParents "p1" "folder1"],
        .error ("error moving to folder: " ++ "boom")) :=
  ⟨by decide, create_move_failure_no_rollback "T" "folder1" "p1" "boom" (by decide)⟩

end GSM
